import Mathlib

/-!
Shallow embedding of the EFI Firmware Volume parser/serializer of
`pkg/efi/volume.go` (wInd3x). Bytes are modelled as `List Nat`; every read of
a byte from the input normalizes it with `% 256`, which is how a real byte
reader behaves. Machine integers are `Nat` with explicit `% 2 ^ w` where the
Go code performs fixed-width arithmetic.

The file-record codec (`readFile`, `FirmwareFile.Serialize`), the
`NestedReader` cursor, the `GUID` rendering, `FileTypePadding` and
`checksum16` are collaborators that are not part of the shown source; they
are modelled from the spec where marked.
-/

namespace Wind3x

/-- Little-endian value of a byte list; each entry is normalized `% 256` the
way a byte reader would deliver it. -/
def leNum : List Nat → Nat
  | [] => 0
  | b :: r => b % 256 + 256 * leNum r

/-- Little-endian encoding of `v` on `n` bytes (value taken `mod 2^(8*n)`). -/
def leBytes : Nat → Nat → List Nat
  | 0, _ => []
  | n + 1, v => v % 256 :: leBytes n (v / 256)

/-- FirmwareVolumeHeader as per EFI spec (fields as in the Go struct; list
fields hold the raw bytes, numeric fields the little-endian values). -/
structure FirmwareVolumeHeader where
  Reserved : List Nat
  GUID : List Nat
  Length : Nat
  Signature : List Nat
  AttributeMask : Nat
  HeaderLength : Nat
  Checksum : Nat
  ExtHeaderOffset : Nat
  Reserved2 : Nat
  Revision : Nat
  deriving Repr, DecidableEq

/-- Modelled from the spec: the on-disk byte form of the single fixed GUID
constant `7a9354d9-0468-444a-81ce-0bf617d890df` that `check` compares
against (the `GUID` type and its `String` rendering are not in the shown
source; EFI GUIDs store the first three groups little-endian). -/
def validGUIDBytes : List Nat :=
  [0xd9, 0x54, 0x93, 0x7a, 0x68, 0x04, 0x4a, 0x44,
   0x81, 0xce, 0x0b, 0xf6, 0x17, 0xd8, 0x90, 0xdf]

/-- ASCII `_FVH`. -/
def fvhSignature : List Nat := [0x5f, 0x46, 0x56, 0x48]

/-- Error taxonomy: one constructor per distinct `fmt.Errorf` return site of
`ReadVolume`/`check`. -/
inductive VolErr where
  | headerShort
  | unknownGUID
  | invalidSignature
  | headerLengthTooSmall
  | blockmapMisaligned
  | blockmapBadTerminator
  | blockmapBadCount
  | fileError (i : Nat)
  deriving Repr, DecidableEq

/-- Spec class `UnsupportedFormat`: GUID/signature mismatch. -/
def isUnsupportedFormat : VolErr → Bool
  | .unknownGUID => true
  | .invalidSignature => true
  | _ => false

/-- Spec class `MalformedHeader`: short header or undersized HeaderLength. -/
def isMalformedHeader : VolErr → Bool
  | .headerShort => true
  | .headerLengthTooSmall => true
  | _ => false

/-- Spec class `MalformedBlockMap`: misaligned table, bad terminator, or bad
entry count. -/
def isMalformedBlockMap : VolErr → Bool
  | .blockmapMisaligned => true
  | .blockmapBadTerminator => true
  | .blockmapBadCount => true
  | _ => false

/-- The `check` method of `FirmwareVolumeHeader` (volume.go lines 28-39):
GUID test, then signature test, then `HeaderLength < 0x38+8`. -/
def FirmwareVolumeHeader.check (h : FirmwareVolumeHeader) : Option VolErr :=
  if h.GUID ≠ validGUIDBytes then some .unknownGUID
  else if h.Signature ≠ fvhSignature then some .invalidSignature
  else if h.HeaderLength < 0x38 + 8 then some .headerLengthTooSmall
  else none

/-- Modelled from the spec: a minimal `FirmwareFile` record for the external
File-Record codec — a `Type` discriminator plus opaque payload (spec section
3 FileRecord: "opaque aggregate with at least a Type discriminator"). -/
structure FirmwareFile where
  FileType : Nat
  data : List Nat
  deriving Repr, DecidableEq

/-- Modelled from the spec: the reserved `Type` value that marks a padding
record (`FileTypePadding` in the Go sources; EFI pad-file type). -/
def FileTypePadding : Nat := 0xf0

/-- Modelled from the spec: `FileRecord.serialize() -> bytes` — a
self-describing record: one type byte, a 24-bit little-endian total size,
then the payload (spec sections 3 and 6: each record "self-describing its
own length"). -/
def FirmwareFile.Serialize (f : FirmwareFile) : List Nat :=
  f.FileType % 256 :: (leBytes 3 (4 + f.data.length) ++ f.data)

/-- Modelled from the spec: `readFile` of the File-Record codec — inverse of
`FirmwareFile.Serialize`; after a record it skips the trailing fill bytes up
to the next multiple of 8, the per-file alignment of the on-disk format
(spec section 4.4 step 2). -/
def readFile (b : List Nat) : Option (FirmwareFile × List Nat) :=
  if b.length < 4 then none
  else
    let t := b.headD 0 % 256
    let s := leNum ((b.drop 1).take 3)
    if s < 4 ∨ b.length < s then none
    else
      let d := (b.drop 4).take (s - 4)
      let consume := s + (8 - s % 8) % 8
      some (⟨t, d⟩, b.drop consume)

/-- The file loop of `ReadVolume` (volume.go lines 113-120): read records
until the bounded data region is empty; an error carries the 0-based index
of the failing record. Fuel bounds the recursion; `ReadVolume` passes
`region.length + 1`, which is never exhausted since each record consumes at
least 4 bytes. -/
def readFiles : Nat → Nat → List Nat → Except Nat (List FirmwareFile)
  | 0, i, b => if b.isEmpty then .ok [] else .error i
  | fuel + 1, i, b =>
    if b.isEmpty then .ok []
    else
      match readFile b with
      | none => .error i
      | some (f, r) => (readFiles fuel (i + 1) r).map (fun fs => f :: fs)

/-- Volume is an EFI Firmware Volume (Go embeds the header; here it is the
`header` field). -/
structure Volume where
  header : FirmwareVolumeHeader
  Files : List FirmwareFile
  Custom : List Nat
  deriving Repr, DecidableEq

/-- One block-map entry. -/
structure blockmap where
  BlockCount : Nat
  BlockSize : Nat
  deriving Repr, DecidableEq

/-- Outcome of `ReadVolume`: a returned value, a returned error, a
`glog.Exit` process termination, or a Go runtime panic. -/
inductive PResult where
  | ok (v : Volume)
  | err (e : VolErr)
  | exit (msg : String)
  | panicked (msg : String)
  deriving Repr, DecidableEq

/-- True iff the result is a returned error. -/
def PResult.isErr : PResult → Bool
  | .err _ => true
  | _ => false

/-- Decode of the fixed 0x38-byte header, little-endian (the `binary.Read`
at volume.go line 61 over the Go struct layout). -/
def readHeader (b : List Nat) : Option (FirmwareVolumeHeader × List Nat) :=
  if b.length < 0x38 then none
  else
    some ({ Reserved := b.take 16
          , GUID := (b.drop 16).take 16
          , Length := leNum ((b.drop 32).take 8)
          , Signature := (b.drop 40).take 4
          , AttributeMask := leNum ((b.drop 44).take 4)
          , HeaderLength := leNum ((b.drop 48).take 2)
          , Checksum := leNum ((b.drop 50).take 2)
          , ExtHeaderOffset := leNum ((b.drop 52).take 2)
          , Reserved2 := leNum ((b.drop 54).take 1)
          , Revision := leNum ((b.drop 55).take 1) }, b.drop 0x38)

/-- The block-map read loop (volume.go lines 74-81): `n` sequential 8-byte
little-endian entries; `none` when a read runs past the remaining bytes
(the Go code calls `glog.Exit` there). -/
def readBlockmap : Nat → List Nat → Option (List blockmap × List Nat)
  | 0, b => some ([], b)
  | n + 1, b =>
    if b.length < 8 then none
    else
      match readBlockmap n (b.drop 8) with
      | none => none
      | some (es, r) =>
        some (⟨leNum (b.take 4), leNum ((b.drop 4).take 4)⟩ :: es, r)

/-- Data-region length derivation (volume.go lines 93-96): `BlockCount *
BlockSize` in uint32, then the `0x28 + 0x20` vendor correction subtracted in
uint32. -/
def dataRegionLength (bc bs : Nat) : Nat :=
  let dataSize := bc * bs % 2 ^ 32
  (dataSize + (2 ^ 32 - (0x28 + 0x20))) % 2 ^ 32

/-- Outcome of the file loop turned into the final `ReadVolume` result
(volume.go lines 113-128): a file error is wrapped with its index, success
builds the Volume. -/
def volumeFromFiles (h : FirmwareVolumeHeader)
    (res : Except Nat (List FirmwareFile)) (rest2 : List Nat) : PResult :=
  match res with
  | .error i => .err (.fileError i)
  | .ok files => .ok { header := h, Files := files, Custom := rest2 }

/-- Tail of `ReadVolume` after block-map validation (volume.go lines
93-128): carve the data region, keep the rest as `Custom`, parse the file
records. `List.take`/`List.drop` model `NestedReader.Sub`/`Advance`
(bounded views clamp at the end of the owned bytes). -/
def volumeFromBmap (h : FirmwareVolumeHeader) (bmap : List blockmap)
    (rest : List Nat) : PResult :=
  let e0 := bmap.headD ⟨0, 0⟩
  let dataSize := dataRegionLength e0.BlockCount e0.BlockSize
  let dataSub := rest.take dataSize
  let rest2 := rest.drop dataSize
  volumeFromFiles h (readFiles (dataSub.length + 1) 0 dataSub) rest2

/-- `ReadVolume` (volume.go lines 59-128): header, `check`, block-map size
divisibility, entry loop (`glog.Exit` on a short read), terminator check
(Go indexes `bmap[len(bmap)-1]`, a runtime panic on an empty map), entry
count check, then the data region and files. `HeaderLength - 0x38` is
uint16 arithmetic; `check` has already ensured `HeaderLength ≥ 0x40`, so
plain truncated subtraction agrees with it. -/
def ReadVolume (b : List Nat) : PResult :=
  match readHeader b with
  | none => .err .headerShort
  | some (h, rest) =>
    match h.check with
    | some e => .err e
    | none =>
      let blockmapSize := h.HeaderLength - 0x38
      if blockmapSize % 8 ≠ 0 then .err .blockmapMisaligned
      else
        match readBlockmap (blockmapSize / 8) rest with
        | none => .exit "reading blockmap entry failed"
        | some (bmap, rest2) =>
          match bmap.getLast? with
          | none => .panicked "index out of range"
          | some last =>
            if last.BlockCount ≠ 0 ∨ last.BlockSize ≠ 0 then
              .err .blockmapBadTerminator
            else if bmap.length ≠ 2 then .err .blockmapBadCount
            else volumeFromBmap h bmap rest2

/-- Modelled from the spec: `checksum16` (not in the shown source) — the
16-bit summation/complement over little-endian 16-bit words (spec section
2 Checksum). -/
def words16 : List Nat → List Nat
  | [] => []
  | [a] => [a % 256]
  | a :: b :: r => (a % 256 + 256 * (b % 256)) :: words16 r

/-- Complement of the 16-bit word sum, so that the summed buffer checks to
zero. -/
def checksum16 (b : List Nat) : Nat :=
  (2 ^ 16 - (words16 b).sum % 2 ^ 16) % 2 ^ 16

/-- Encode of the fixed header, little-endian (the `binary.Write` of the Go
struct). -/
def encodeHeader (h : FirmwareVolumeHeader) : List Nat :=
  h.Reserved ++ h.GUID ++ leBytes 8 h.Length ++ h.Signature ++
    leBytes 4 h.AttributeMask ++ leBytes 2 h.HeaderLength ++
    leBytes 2 h.Checksum ++ leBytes 2 h.ExtHeaderOffset ++
    leBytes 1 h.Reserved2 ++ leBytes 1 h.Revision

/-- Encode of a block-map slice, little-endian. -/
def encodeBlockmap (bmap : List blockmap) : List Nat :=
  bmap.flatMap (fun e => leBytes 4 e.BlockCount ++ leBytes 4 e.BlockSize)

/-- Per-file 8-byte alignment of `Volume.Serialize` (volume.go lines
175-178): append 0xFF fill bytes up to the next multiple of 8. -/
def padTo8 (d : List Nat) : List Nat :=
  if d.length % 8 = 0 then d
  else d ++ List.replicate (8 - d.length % 8) 0xff

/-- Outcome of `Volume.Serialize`: a Go panic, a returned error (the
per-file serialize failure path at volume.go lines 168-171 — unreachable
under the modelled total file codec), or the updated receiver together with
the produced bytes (the Go method mutates `v` through its pointer
receiver). -/
inductive SerResult where
  | panicked (msg : String)
  | err (msg : String)
  | ok (v : Volume) (out : List Nat)
  deriving Repr, DecidableEq

/-- `Volume.Serialize` (volume.go lines 130-252): panic when no
padding-typed file exists; serialize every file 8-aligned; synthesize the
fixed two-entry 256-byte block map; recompute `Length`, `HeaderLength`,
`ExtHeaderOffset` and the checksum on the receiver; emit header, block map,
file data, then `Custom`. -/
def Volume.Serialize (v : Volume) : SerResult :=
  if (v.Files.any fun f => f.FileType == FileTypePadding) = false then
    .panicked "unimplemented"
  else
    let fileData := v.Files.map (fun f => padTo8 f.Serialize)
    let filesSize := (fileData.map List.length).sum
    let totalSize := filesSize + 0x38 + 0x10
    let nblocks := totalSize / 256 % 2 ^ 32
    let bmap : List blockmap := [⟨nblocks, 256⟩, ⟨0, 0⟩]
    let paddingNeeded := if filesSize % 256 ≠ 0 then 256 - filesSize % 256 else 0
    let h1 : FirmwareVolumeHeader :=
      { v.header with
          Length := (filesSize + paddingNeeded) % 2 ^ 64
        , HeaderLength := (0x38 + 8 * bmap.length) % 2 ^ 16
        , ExtHeaderOffset := 0
        , Checksum := 0 }
    let ck := checksum16 (encodeHeader h1 ++ encodeBlockmap bmap)
    let h2 := { h1 with Checksum := ck }
    .ok { v with header := h2 }
      (encodeHeader h2 ++ encodeBlockmap bmap ++ fileData.flatten ++ v.Custom)

/-- Total re-serialized size of a Volume's files, as `Volume.Serialize`
computes it. -/
def filesSizeOf (v : Volume) : Nat :=
  ((v.Files.map (fun f => padTo8 f.Serialize)).map List.length).sum

/-- Bytes produced by a successful `Volume.Serialize` (empty on the failure
outcomes). -/
def serializedBytes (v : Volume) : List Nat :=
  match v.Serialize with
  | .ok _ out => out
  | _ => []

/-- The header+block-map prefix of an emitted image with the 16-bit checksum
field (offsets 0x32-0x33) zeroed. -/
def zeroChecksumField (b : List Nat) : List Nat :=
  b.take 0x32 ++ [0, 0] ++ b.drop 0x34

/-- Shape of a header whose list fields have the layout's fixed sizes (as
every header produced by `readHeader` has). -/
def wfShape (h : FirmwareVolumeHeader) : Prop :=
  h.Reserved.length = 16 ∧ h.GUID.length = 16 ∧ h.Signature.length = 4

instance (h : FirmwareVolumeHeader) : Decidable (wfShape h) := by
  unfold wfShape; infer_instance

/-- Numeric fields reduced to their on-disk width, as a decode of an encode
delivers them. -/
def normHeader (h : FirmwareVolumeHeader) : FirmwareVolumeHeader :=
  { h with
      Length := h.Length % 2 ^ 64
    , AttributeMask := h.AttributeMask % 2 ^ 32
    , HeaderLength := h.HeaderLength % 2 ^ 16
    , Checksum := h.Checksum % 2 ^ 16
    , ExtHeaderOffset := h.ExtHeaderOffset % 2 ^ 16
    , Reserved2 := h.Reserved2 % 2 ^ 8
    , Revision := h.Revision % 2 ^ 8 }

/-- Well-formedness of a parsed file record: the type fits a byte and the
self-describing size fits 24 bits (every record `readFile` returns has
this). -/
def wfFile (f : FirmwareFile) : Prop :=
  f.FileType < 256 ∧ 4 + f.data.length < 2 ^ 24

instance (f : FirmwareFile) : Decidable (wfFile f) := by
  unfold wfFile; infer_instance

/-- The per-file 8-aligned byte chunks `Volume.Serialize` produces. -/
def serFileData (v : Volume) : List (List Nat) :=
  v.Files.map (fun f => padTo8 f.Serialize)

/-- The block count `Volume.Serialize` derives (`uint32(totalSize / 256)`). -/
def serNblocks (v : Volume) : Nat :=
  (filesSizeOf v + 0x38 + 0x10) / 256 % 2 ^ 32

/-- The two-entry block map `Volume.Serialize` synthesizes. -/
def serBmap (v : Volume) : List blockmap :=
  [⟨serNblocks v, 256⟩, ⟨0, 0⟩]

/-- The slack `Volume.Serialize` computes to round the file region up to a
256-byte multiple. -/
def serPadding (v : Volume) : Nat :=
  if filesSizeOf v % 256 ≠ 0 then 256 - filesSizeOf v % 256 else 0

/-- The header as `Volume.Serialize` prepares it before checksumming. -/
def serHeader1 (v : Volume) : FirmwareVolumeHeader :=
  { v.header with
      Length := (filesSizeOf v + serPadding v) % 2 ^ 64
    , HeaderLength := (0x38 + 8 * (serBmap v).length) % 2 ^ 16
    , ExtHeaderOffset := 0
    , Checksum := 0 }

/-- The checksum `Volume.Serialize` stores. -/
def serChecksum (v : Volume) : Nat :=
  checksum16 (encodeHeader (serHeader1 v) ++ encodeBlockmap (serBmap v))

/-- The header as `Volume.Serialize` emits it and leaves it on the
receiver. -/
def serHeader2 (v : Volume) : FirmwareVolumeHeader :=
  { serHeader1 v with Checksum := serChecksum v }

/-- The byte image a successful `Volume.Serialize` emits. -/
def serOut (v : Volume) : List Nat :=
  encodeHeader (serHeader2 v) ++ encodeBlockmap (serBmap v) ++
    (serFileData v).flatten ++ v.Custom

/-- The Volume as `Volume.Serialize` leaves its receiver (unchanged on the
failure outcomes). -/
def serializedVolume (v : Volume) : Volume :=
  match v.Serialize with
  | .ok v2 _ => v2
  | _ => v

/-- True iff a `Volume.Serialize` outcome is a returned error. -/
def SerResult.isErr : SerResult → Bool
  | .err _ => true
  | _ => false

/-- The header record decoded from a 0x38-byte slice (the field layout of
`readHeader`, factored over the first 0x38 bytes only). -/
def headerOfBytes (c : List Nat) : FirmwareVolumeHeader :=
  { Reserved := c.take 16
  , GUID := (c.drop 16).take 16
  , Length := leNum ((c.drop 32).take 8)
  , Signature := (c.drop 40).take 4
  , AttributeMask := leNum ((c.drop 44).take 4)
  , HeaderLength := leNum ((c.drop 48).take 2)
  , Checksum := leNum ((c.drop 50).take 2)
  , ExtHeaderOffset := leNum ((c.drop 52).take 2)
  , Reserved2 := leNum ((c.drop 54).take 1)
  , Revision := leNum ((c.drop 55).take 1) }

/-- A valid 0x38-byte sample header image: correct GUID and signature,
`HeaderLength` 0x48 (a two-entry block map), all passthrough fields zero. -/
def sampleHeaderBytes : List Nat :=
  List.replicate 16 0 ++ validGUIDBytes ++ List.replicate 8 0 ++ fvhSignature ++
    List.replicate 4 0 ++ [0x48, 0] ++ [0, 0] ++ [0, 0] ++ [0] ++ [0]

/-- The header record `sampleHeaderBytes` decodes to. -/
def sampleHeader : FirmwareVolumeHeader :=
  { Reserved := List.replicate 16 0
  , GUID := validGUIDBytes
  , Length := 0
  , Signature := fvhSignature
  , AttributeMask := 0
  , HeaderLength := 0x48
  , Checksum := 0
  , ExtHeaderOffset := 0
  , Reserved2 := 0
  , Revision := 0 }

/-- A valid sample image whose single (padding-typed) file record has a
serialized size of 312 bytes: block map `{3, 128}` gives a data region of
`3*128 - 0x48 = 312` bytes, which the record fills exactly. Re-serializing
quantizes the block map to `{(312+0x48)/256, 256} = {1, 256}`, so a second
parse sees a data region of only `256 - 0x48 = 184` bytes. -/
def c1input : List Nat :=
  sampleHeaderBytes ++
    [3, 0, 0, 0, 0x80, 0, 0, 0, 0, 0, 0, 0, 0, 0, 0, 0] ++
    ([0xf0, 0x38, 0x01, 0] ++ List.replicate 308 0) ++ [1, 2, 3]

/-- The Volume `c1input` parses to. -/
def c1vol : Volume :=
  { header := sampleHeader
  , Files := [⟨0xf0, List.replicate 308 0⟩]
  , Custom := [1, 2, 3] }

/-- A valid sample image whose single padding record serializes to 184
bytes, so the file region plus the 0x48-byte header is exactly one 256-byte
block: block map `{1, 256}`, data region `256 - 0x48 = 184` bytes. -/
def c1winput : List Nat :=
  sampleHeaderBytes ++
    [1, 0, 0, 0, 0, 1, 0, 0, 0, 0, 0, 0, 0, 0, 0, 0] ++
    ([0xf0, 0xb8, 0, 0] ++ List.replicate 180 7) ++ [1, 2, 3]

/-- The Volume `c1winput` parses to. -/
def c1wvol : Volume :=
  { header := sampleHeader
  , Files := [⟨0xf0, List.replicate 180 7⟩]
  , Custom := [1, 2, 3] }

/-- A Volume with one non-padding file record and no padding record. -/
def noPadVol : Volume :=
  { header := sampleHeader, Files := [⟨0x07, []⟩], Custom := [9] }

/-- A Volume with no file records at all (hence no padding record). -/
def noFilesVol : Volume :=
  { header := sampleHeader, Files := [], Custom := [] }

/-- A valid header followed by only 4 bytes: too short for even one 8-byte
block-map entry. -/
def c3input : List Nat := sampleHeaderBytes ++ [0, 0, 0, 0]

/-- A header image whose GUID is corrupted in its first byte and whose
`HeaderLength` is 0x30. -/
def c4input : List Nat :=
  List.replicate 16 0 ++
    (0 :: validGUIDBytes.tail) ++ List.replicate 8 0 ++ fvhSignature ++
    List.replicate 4 0 ++ [0x30, 0] ++ [0, 0] ++ [0, 0] ++ [0] ++ [0]

/-- A serializable Volume whose stored header `Length` (999) disagrees with
what `Serialize` recomputes (256). -/
def c9vol : Volume :=
  { header := { sampleHeader with Length := 999 }
  , Files := [⟨0xf0, []⟩]
  , Custom := [] }

/-- The header `c4input` decodes to: corrupt GUID, `HeaderLength` 0x30. -/
def c4hdr : FirmwareVolumeHeader :=
  { Reserved := List.replicate 16 0
  , GUID := 0 :: validGUIDBytes.tail
  , Length := 0
  , Signature := fvhSignature
  , AttributeMask := 0
  , HeaderLength := 0x30
  , Checksum := 0
  , ExtHeaderOffset := 0
  , Reserved2 := 0
  , Revision := 0 }

/-- A header image that passes `check` (`HeaderLength` 0x41 ≥ 0x40) but
whose block-map size `0x41 - 0x38 = 9` is not a multiple of 8. -/
def c5input : List Nat :=
  List.replicate 16 0 ++ validGUIDBytes ++ List.replicate 8 0 ++ fvhSignature ++
    List.replicate 4 0 ++ [0x41, 0] ++ [0, 0] ++ [0, 0] ++ [0] ++ [0]

/-- The header `c5input` decodes to. -/
def c5hdr : FirmwareVolumeHeader := { sampleHeader with HeaderLength := 0x41 }

/-- A small serializable Volume with one padding record and a two-byte
payload. -/
def c7vol : Volume :=
  { header := sampleHeader, Files := [⟨0xf0, [5, 6]⟩], Custom := [8, 9] }

/-- A small serializable Volume with one padding record and a nonzero
attribute mask. -/
def c8vol : Volume :=
  { header := { sampleHeader with AttributeMask := 0x1234 }
  , Files := [⟨0xf0, [1]⟩]
  , Custom := [7] }

/-- A small serializable Volume with a padding record and one ordinary
record. -/
def c9wvol : Volume :=
  { header := sampleHeader
  , Files := [⟨0x07, [1, 2]⟩, ⟨0xf0, []⟩]
  , Custom := [3] }

/-! ### Basic lemmas about the byte-level helpers -/

theorem leBytes_length (n v : Nat) : (leBytes n v).length = n := by
  induction n generalizing v with
  | zero => rfl
  | succ n ih => simp [leBytes, ih]

theorem mod_mul_decomp (n a b : Nat) : n % (a * b) = a * (n / a % b) + n % a := by
  conv_lhs => rw [← Nat.div_add_mod (n % (a * b)) a]
  rw [Nat.mod_mul_right_mod]
  congr 1
  rw [Nat.mod_mul_right_div_self]

theorem leNum_leBytes (n v : Nat) : leNum (leBytes n v) = v % 2 ^ (8 * n) := by
  induction n generalizing v with
  | zero => simp [leBytes, leNum, Nat.mod_one]
  | succ n ih =>
    have hpow : (2 : Nat) ^ (8 * (n + 1)) = 256 * 2 ^ (8 * n) := by ring
    rw [leBytes, leNum, ih, hpow, mod_mul_decomp v 256 (2 ^ (8 * n))]
    omega

theorem leNum_lt (l : List Nat) : leNum l < 2 ^ (8 * l.length) := by
  induction l with
  | nil => simp [leNum]
  | cons b r ih =>
    have hb : b % 256 < 256 := Nat.mod_lt _ (by omega)
    have hpow : (2 : Nat) ^ (8 * (r.length + 1)) = 256 * 2 ^ (8 * r.length) := by ring
    simp only [leNum, List.length_cons, hpow]
    omega

theorem take_chunk {α : Type} (xs ys : List α) (n : Nat) (h : xs.length = n) :
    (xs ++ ys).take n = xs := List.take_left' h

theorem drop_chunk {α : Type} (xs ys : List α) (n : Nat) (h : xs.length = n) :
    (xs ++ ys).drop n = ys := List.drop_left' h

theorem encodeHeader_length (h : FirmwareVolumeHeader) (hwf : wfShape h) :
    (encodeHeader h).length = 56 := by
  obtain ⟨h1, h2, h3⟩ := hwf
  simp [encodeHeader, leBytes_length, h1, h2, h3]

theorem readHeader_encode (h : FirmwareVolumeHeader) (r : List Nat)
    (hwf : wfShape h) :
    readHeader (encodeHeader h ++ r) = some (normHeader h, r) := by
  obtain ⟨h1, h2, h3⟩ := hwf
  have assoc : encodeHeader h ++ r
      = h.Reserved ++ (h.GUID ++ (leBytes 8 h.Length ++ (h.Signature ++
        (leBytes 4 h.AttributeMask ++ (leBytes 2 h.HeaderLength ++
        (leBytes 2 h.Checksum ++ (leBytes 2 h.ExtHeaderOffset ++
        (leBytes 1 h.Reserved2 ++ (leBytes 1 h.Revision ++ r))))))))) := by
    simp [encodeHeader]
  set b := encodeHeader h ++ r with hb
  have d16 : b.drop 16 = h.GUID ++ (leBytes 8 h.Length ++ (h.Signature ++
      (leBytes 4 h.AttributeMask ++ (leBytes 2 h.HeaderLength ++
      (leBytes 2 h.Checksum ++ (leBytes 2 h.ExtHeaderOffset ++
      (leBytes 1 h.Reserved2 ++ (leBytes 1 h.Revision ++ r)))))))) := by
    rw [assoc]; exact drop_chunk _ _ _ h1
  have d32 : b.drop 32 = leBytes 8 h.Length ++ (h.Signature ++
      (leBytes 4 h.AttributeMask ++ (leBytes 2 h.HeaderLength ++
      (leBytes 2 h.Checksum ++ (leBytes 2 h.ExtHeaderOffset ++
      (leBytes 1 h.Reserved2 ++ (leBytes 1 h.Revision ++ r))))))) := by
    have e : b.drop 32 = (b.drop 16).drop 16 := by
      exact (List.drop_drop 16 16 b).symm
    rw [e, d16]; exact drop_chunk _ _ _ h2
  have d40 : b.drop 40 = h.Signature ++
      (leBytes 4 h.AttributeMask ++ (leBytes 2 h.HeaderLength ++
      (leBytes 2 h.Checksum ++ (leBytes 2 h.ExtHeaderOffset ++
      (leBytes 1 h.Reserved2 ++ (leBytes 1 h.Revision ++ r)))))) := by
    have e : b.drop 40 = (b.drop 32).drop 8 := by
      exact (List.drop_drop 8 32 b).symm
    rw [e, d32]; exact drop_chunk _ _ _ (leBytes_length 8 _)
  have d44 : b.drop 44 = leBytes 4 h.AttributeMask ++ (leBytes 2 h.HeaderLength ++
      (leBytes 2 h.Checksum ++ (leBytes 2 h.ExtHeaderOffset ++
      (leBytes 1 h.Reserved2 ++ (leBytes 1 h.Revision ++ r))))) := by
    have e : b.drop 44 = (b.drop 40).drop 4 := by
      exact (List.drop_drop 4 40 b).symm
    rw [e, d40]; exact drop_chunk _ _ _ h3
  have d48 : b.drop 48 = leBytes 2 h.HeaderLength ++
      (leBytes 2 h.Checksum ++ (leBytes 2 h.ExtHeaderOffset ++
      (leBytes 1 h.Reserved2 ++ (leBytes 1 h.Revision ++ r)))) := by
    have e : b.drop 48 = (b.drop 44).drop 4 := by
      exact (List.drop_drop 4 44 b).symm
    rw [e, d44]; exact drop_chunk _ _ _ (leBytes_length 4 _)
  have d50 : b.drop 50 = leBytes 2 h.Checksum ++ (leBytes 2 h.ExtHeaderOffset ++
      (leBytes 1 h.Reserved2 ++ (leBytes 1 h.Revision ++ r))) := by
    have e : b.drop 50 = (b.drop 48).drop 2 := by
      exact (List.drop_drop 2 48 b).symm
    rw [e, d48]; exact drop_chunk _ _ _ (leBytes_length 2 _)
  have d52 : b.drop 52 = leBytes 2 h.ExtHeaderOffset ++
      (leBytes 1 h.Reserved2 ++ (leBytes 1 h.Revision ++ r)) := by
    have e : b.drop 52 = (b.drop 50).drop 2 := by
      exact (List.drop_drop 2 50 b).symm
    rw [e, d50]; exact drop_chunk _ _ _ (leBytes_length 2 _)
  have d54 : b.drop 54 = leBytes 1 h.Reserved2 ++ (leBytes 1 h.Revision ++ r) := by
    have e : b.drop 54 = (b.drop 52).drop 2 := by
      exact (List.drop_drop 2 52 b).symm
    rw [e, d52]; exact drop_chunk _ _ _ (leBytes_length 2 _)
  have d55 : b.drop 55 = leBytes 1 h.Revision ++ r := by
    have e : b.drop 55 = (b.drop 54).drop 1 := by
      exact (List.drop_drop 1 54 b).symm
    rw [e, d54]; exact drop_chunk _ _ _ (leBytes_length 1 _)
  have d56 : b.drop 56 = r := by
    have e : b.drop 56 = (b.drop 55).drop 1 := by
      exact (List.drop_drop 1 55 b).symm
    rw [e, d55]; exact drop_chunk _ _ _ (leBytes_length 1 _)
  have hlen : b.length = 56 + r.length := by
    rw [hb]
    simp [encodeHeader, leBytes_length, h1, h2, h3]
    omega
  rw [readHeader, if_neg (by omega)]
  have f0 : b.take 16 = h.Reserved := by rw [assoc]; exact take_chunk _ _ _ h1
  have f1 : (b.drop 16).take 16 = h.GUID := by rw [d16]; exact take_chunk _ _ _ h2
  have f2 : leNum ((b.drop 32).take 8) = h.Length % 2 ^ 64 := by
    rw [d32, take_chunk _ _ _ (leBytes_length 8 _), leNum_leBytes]
  have f3 : (b.drop 40).take 4 = h.Signature := by
    rw [d40]; exact take_chunk _ _ _ h3
  have f4 : leNum ((b.drop 44).take 4) = h.AttributeMask % 2 ^ 32 := by
    rw [d44, take_chunk _ _ _ (leBytes_length 4 _), leNum_leBytes]
  have f5 : leNum ((b.drop 48).take 2) = h.HeaderLength % 2 ^ 16 := by
    rw [d48, take_chunk _ _ _ (leBytes_length 2 _), leNum_leBytes]
  have f6 : leNum ((b.drop 50).take 2) = h.Checksum % 2 ^ 16 := by
    rw [d50, take_chunk _ _ _ (leBytes_length 2 _), leNum_leBytes]
  have f7 : leNum ((b.drop 52).take 2) = h.ExtHeaderOffset % 2 ^ 16 := by
    rw [d52, take_chunk _ _ _ (leBytes_length 2 _), leNum_leBytes]
  have f8 : leNum ((b.drop 54).take 1) = h.Reserved2 % 2 ^ 8 := by
    rw [d54, take_chunk _ _ _ (leBytes_length 1 _), leNum_leBytes]
  have f9 : leNum ((b.drop 55).take 1) = h.Revision % 2 ^ 8 := by
    rw [d55, take_chunk _ _ _ (leBytes_length 1 _), leNum_leBytes]
  rw [f0, f1, f2, f3, f4, f5, f6, f7, f8, f9]
  show some (_, b.drop 56) = _
  rw [d56]
  rfl

theorem leNum_take_lt (l : List Nat) (n : Nat) :
    leNum (l.take n) < 2 ^ (8 * n) := by
  have h1 := leNum_lt (l.take n)
  have h2 : (l.take n).length ≤ n := by simp
  have h3 : (2 : Nat) ^ (8 * (l.take n).length) ≤ 2 ^ (8 * n) :=
    Nat.pow_le_pow_right (by omega) (by omega)
  omega

theorem readHeader_eq (b : List Nat) (hlen : ¬ b.length < 0x38) :
    readHeader b = some (headerOfBytes (b.take 0x38), b.drop 0x38) := by
  rw [readHeader, if_neg hlen]
  have f0 : (b.take 56).take 16 = b.take 16 := by
    rw [List.take_take]
    norm_num
  have hfield : ∀ k n : Nat, k + n ≤ 56 →
      ((b.take 56).drop k).take n = (b.drop k).take n := by
    intro k n hkn
    rw [List.drop_take, List.take_take]
    congr 1
    omega
  have hh : headerOfBytes (b.take 0x38)
      = { Reserved := b.take 16
        , GUID := (b.drop 16).take 16
        , Length := leNum ((b.drop 32).take 8)
        , Signature := (b.drop 40).take 4
        , AttributeMask := leNum ((b.drop 44).take 4)
        , HeaderLength := leNum ((b.drop 48).take 2)
        , Checksum := leNum ((b.drop 50).take 2)
        , ExtHeaderOffset := leNum ((b.drop 52).take 2)
        , Reserved2 := leNum ((b.drop 54).take 1)
        , Revision := leNum ((b.drop 55).take 1) } := by
    unfold headerOfBytes
    rw [f0, hfield 16 16 (by omega), hfield 32 8 (by omega),
      hfield 40 4 (by omega), hfield 44 4 (by omega), hfield 48 2 (by omega),
      hfield 50 2 (by omega), hfield 52 2 (by omega), hfield 54 1 (by omega),
      hfield 55 1 (by omega)]
  rw [hh]

theorem readHeader_take_junk (b junk : List Nat) (hlen : 56 ≤ b.length) :
    readHeader (b.take 0x38 ++ junk)
      = some (headerOfBytes (b.take 0x38), junk) := by
  have htl : (b.take 0x38).length = 0x38 := by simp; omega
  have h1 : ¬ (b.take 0x38 ++ junk).length < 0x38 := by
    rw [List.length_append, htl]; omega
  rw [readHeader_eq _ h1, take_chunk _ _ _ htl, drop_chunk _ _ _ htl]

theorem readHeader_headerOfBytes (b : List Nat) (h : FirmwareVolumeHeader)
    (rest : List Nat) (hh : readHeader b = some (h, rest)) :
    h = headerOfBytes (b.take 0x38) := by
  by_cases hlen : b.length < 0x38
  · rw [readHeader, if_pos hlen] at hh; cases hh
  · rw [readHeader_eq b hlen] at hh
    injection hh with h12
    injection h12 with ha _
    exact ha.symm

/-! ### Lemmas about the block-map loop -/

theorem readBlockmap_spec (n : Nat) (b : List Nat) (es : List blockmap)
    (r : List Nat) (h : readBlockmap n b = some (es, r)) :
    es.length = n ∧ r = b.drop (8 * n) := by
  induction n generalizing b es r with
  | zero =>
    simp only [readBlockmap] at h
    cases h
    simp
  | succ n ih =>
    rw [readBlockmap] at h
    by_cases hl : b.length < 8
    · rw [if_pos hl] at h; cases h
    · rw [if_neg hl] at h
      cases hrec : readBlockmap n (b.drop 8) with
      | none => rw [hrec] at h; cases h
      | some p =>
        obtain ⟨es', r'⟩ := p
        rw [hrec] at h
        cases h
        obtain ⟨hlen, hr⟩ := ih _ _ _ hrec
        refine ⟨by simp [hlen], ?_⟩
        rw [hr, List.drop_drop]
        congr 1
        ring

theorem readBlockmap_short (n : Nat) (b : List Nat) (h : b.length < 8 * n) :
    readBlockmap n b = none := by
  induction n generalizing b with
  | zero => omega
  | succ n ih =>
    rw [readBlockmap]
    by_cases hl : b.length < 8
    · rw [if_pos hl]
    · rw [if_neg hl]
      have : (b.drop 8).length < 8 * n := by simp; omega
      rw [ih _ this]

theorem readBlockmap_bounds (n : Nat) (b : List Nat) (es : List blockmap)
    (r : List Nat) (h : readBlockmap n b = some (es, r)) :
    ∀ e ∈ es, e.BlockCount < 2 ^ 32 ∧ e.BlockSize < 2 ^ 32 := by
  induction n generalizing b es r with
  | zero =>
    rw [readBlockmap] at h
    cases h
    simp
  | succ n ih =>
    rw [readBlockmap] at h
    by_cases hl : b.length < 8
    · rw [if_pos hl] at h; cases h
    · rw [if_neg hl] at h
      cases hrec : readBlockmap n (b.drop 8) with
      | none => rw [hrec] at h; cases h
      | some p =>
        obtain ⟨es', r'⟩ := p
        rw [hrec] at h
        cases h
        intro e he
        rcases List.mem_cons.mp he with rfl | he
        · refine ⟨?_, ?_⟩
          · have := leNum_take_lt b 4
            norm_num at this ⊢
            omega
          · have := leNum_take_lt (b.drop 4) 4
            norm_num at this ⊢
            omega
        · exact ih _ _ _ hrec e he

theorem readBlockmap_encode (es : List blockmap) (r : List Nat)
    (hwf : ∀ e ∈ es, e.BlockCount < 2 ^ 32 ∧ e.BlockSize < 2 ^ 32) :
    readBlockmap es.length (encodeBlockmap es ++ r) = some (es, r) := by
  induction es with
  | nil => simp [readBlockmap, encodeBlockmap]
  | cons e es ih =>
    obtain ⟨hbc, hbs⟩ := hwf e (by simp)
    have henc : encodeBlockmap (e :: es) ++ r
        = leBytes 4 e.BlockCount ++ (leBytes 4 e.BlockSize ++
            (encodeBlockmap es ++ r)) := by
      simp [encodeBlockmap]
    have hlen : (encodeBlockmap (e :: es) ++ r).length
        = 8 + (encodeBlockmap es ++ r).length := by
      rw [henc]; simp [leBytes_length]; omega
    rw [List.length_cons, readBlockmap, if_neg (by omega)]
    have hd8 : (encodeBlockmap (e :: es) ++ r).drop 8 = encodeBlockmap es ++ r := by
      rw [henc]
      have e1 : (leBytes 4 e.BlockCount ++ (leBytes 4 e.BlockSize ++
          (encodeBlockmap es ++ r))).drop 8
          = ((leBytes 4 e.BlockCount ++ (leBytes 4 e.BlockSize ++
              (encodeBlockmap es ++ r))).drop 4).drop 4 := by
        exact (List.drop_drop 4 4 _).symm
      rw [e1, drop_chunk _ _ _ (leBytes_length 4 _),
        drop_chunk _ _ _ (leBytes_length 4 _)]
    rw [hd8, ih (fun e he => hwf e (by simp [he]))]
    have ht4 : (encodeBlockmap (e :: es) ++ r).take 4 = leBytes 4 e.BlockCount := by
      rw [henc]; exact take_chunk _ _ _ (leBytes_length 4 _)
    have hd4 : ((encodeBlockmap (e :: es) ++ r).drop 4).take 4
        = leBytes 4 e.BlockSize := by
      rw [henc, drop_chunk _ _ _ (leBytes_length 4 _)]
      exact take_chunk _ _ _ (leBytes_length 4 _)
    dsimp only
    rw [ht4, hd4, leNum_leBytes, leNum_leBytes]
    have h1 : e.BlockCount % 2 ^ (8 * 4) = e.BlockCount :=
      Nat.mod_eq_of_lt (by norm_num at hbc ⊢; omega)
    have h2 : e.BlockSize % 2 ^ (8 * 4) = e.BlockSize :=
      Nat.mod_eq_of_lt (by norm_num at hbs ⊢; omega)
    rw [h1, h2]

/-! ### Lemmas about the modelled file codec -/

theorem serialize_length (f : FirmwareFile) :
    f.Serialize.length = 4 + f.data.length := by
  simp [FirmwareFile.Serialize, leBytes_length]
  omega

theorem padTo8_eq (d : List Nat) :
    padTo8 d = d ++ List.replicate ((8 - d.length % 8) % 8) 0xff := by
  rw [padTo8]
  by_cases h : d.length % 8 = 0
  · rw [if_pos h, h]; simp
  · rw [if_neg h]
    congr 2
    have : d.length % 8 < 8 := Nat.mod_lt _ (by omega)
    omega

theorem padTo8_length (d : List Nat) :
    (padTo8 d).length = d.length + (8 - d.length % 8) % 8 := by
  rw [padTo8_eq]; simp

theorem readFile_chunk (f : FirmwareFile) (r : List Nat) (hwf : wfFile f) :
    readFile (padTo8 f.Serialize ++ r) = some (f, r) := by
  obtain ⟨ht, hs⟩ := hwf
  set s := 4 + f.data.length with hsdef
  set p := (8 - s % 8) % 8 with hpdef
  have hser : f.Serialize = f.FileType % 256 :: (leBytes 3 s ++ f.data) := rfl
  have hserlen : f.Serialize.length = s := serialize_length f
  have hpad : padTo8 f.Serialize ++ r
      = f.FileType % 256 :: (leBytes 3 s ++ (f.data ++
          (List.replicate p 0xff ++ r))) := by
    rw [padTo8_eq, hserlen, hser]
    simp
  set b := padTo8 f.Serialize ++ r with hbdef
  have hblen : b.length = s + p + r.length := by
    rw [hbdef, List.length_append, padTo8_length, hserlen]
  have hd1 : b.drop 1 = leBytes 3 s ++ (f.data ++ (List.replicate p 0xff ++ r)) := by
    rw [hpad]; rfl
  have hhead : b.headD 0 = f.FileType % 256 := by rw [hpad]; rfl
  have hsval : leNum ((b.drop 1).take 3) = s := by
    rw [hd1, take_chunk _ _ _ (leBytes_length 3 _), leNum_leBytes]
    exact Nat.mod_eq_of_lt (by norm_num at hs ⊢; omega)
  have hd4 : b.drop 4 = f.data ++ (List.replicate p 0xff ++ r) := by
    have e : b.drop 4 = (b.drop 1).drop 3 := (List.drop_drop 3 1 b).symm
    rw [e, hd1, drop_chunk _ _ _ (leBytes_length 3 _)]
  have hdata : (b.drop 4).take (s - 4) = f.data := by
    rw [hd4]
    exact take_chunk _ _ _ (by omega)
  have hconsume : b.drop (s + p) = r := by
    rw [hbdef]
    exact drop_chunk _ _ _ (by rw [padTo8_length, hserlen])
  rw [readFile, if_neg (by omega)]
  simp only [hhead, hsval]
  rw [if_neg (by push_neg; constructor <;> omega)]
  simp only [hdata]
  rw [← hpdef, hconsume]
  have htt : f.FileType % 256 % 256 = f.FileType := by omega
  rw [htt]

theorem readFiles_chunks (files : List FirmwareFile) (fuel i : Nat)
    (hwf : ∀ f ∈ files, wfFile f) (hfuel : files.length ≤ fuel) :
    readFiles fuel i ((files.map (fun f => padTo8 f.Serialize)).flatten)
      = .ok files := by
  induction files generalizing fuel i with
  | nil => cases fuel <;> simp [readFiles]
  | cons f fs ih =>
    cases fuel with
    | zero => simp at hfuel
    | succ fuel =>
      have hflat : ((f :: fs).map (fun g => padTo8 g.Serialize)).flatten
          = padTo8 f.Serialize ++ (fs.map (fun g => padTo8 g.Serialize)).flatten := by
        simp
      have hne : (padTo8 f.Serialize ++
          (fs.map (fun g => padTo8 g.Serialize)).flatten).isEmpty = false := by
        have h1 : 1 ≤ (padTo8 f.Serialize).length := by
          rw [padTo8_length, serialize_length]; omega
        rcases hh : padTo8 f.Serialize with _ | ⟨a, l⟩
        · rw [hh] at h1; simp at h1
        · rfl
      rw [hflat, readFiles, hne]
      show (match readFile (padTo8 f.Serialize ++ _) with
        | none => Except.error i
        | some (g, r) => (readFiles fuel (i + 1) r).map (fun gs => g :: gs)) = _
      rw [readFile_chunk f _ (hwf f (by simp))]
      dsimp only
      rw [ih fuel (i + 1) (fun g hg => hwf g (by simp [hg]))
          (by simp at hfuel ⊢; omega)]
      rfl

theorem readFile_wf (b : List Nat) (f : FirmwareFile) (r : List Nat)
    (h : readFile b = some (f, r)) : wfFile f := by
  simp only [readFile] at h
  split at h
  · cases h
  · split at h
    · cases h
    · rename_i h4 hc
      cases h
      push_neg at hc
      refine ⟨Nat.mod_lt _ (by omega), ?_⟩
      show 4 + ((b.drop 4).take (leNum ((b.drop 1).take 3) - 4)).length < 2 ^ 24
      have hlen : ((b.drop 4).take (leNum ((b.drop 1).take 3) - 4)).length
          ≤ leNum ((b.drop 1).take 3) - 4 := by
        simp
      have hs : leNum ((b.drop 1).take 3) < 2 ^ 24 := by
        have h1 := leNum_lt ((b.drop 1).take 3)
        have h2 : ((b.drop 1).take 3).length ≤ 3 := by simp
        have h3 : (2 : Nat) ^ (8 * ((b.drop 1).take 3).length) ≤ 2 ^ 24 :=
          Nat.pow_le_pow_right (by omega) (by omega)
        omega
      omega

theorem readFiles_wf (fuel : Nat) (i : Nat) (b : List Nat)
    (files : List FirmwareFile) (h : readFiles fuel i b = .ok files) :
    ∀ f ∈ files, wfFile f := by
  induction fuel generalizing i b files with
  | zero =>
    rw [readFiles] at h
    split at h
    · cases h; simp
    · cases h
  | succ fuel ih =>
    rw [readFiles] at h
    split at h
    · cases h; simp
    · split at h
      · cases h
      · rename_i g r heq
        cases hrec : readFiles fuel (i + 1) r with
        | error e => rw [hrec] at h; cases h
        | ok fs =>
          rw [hrec] at h
          simp only [Except.map] at h
          cases h
          intro x hx
          rcases List.mem_cons.mp hx with hx | hx
          · exact hx ▸ readFile_wf _ _ _ heq
          · exact ih _ _ _ hrec x hx

/-! ### Inversion facts about a successful parse -/

theorem check_none_iff (h : FirmwareVolumeHeader) :
    h.check = none ↔
      h.GUID = validGUIDBytes ∧ h.Signature = fvhSignature ∧
        0x40 ≤ h.HeaderLength := by
  unfold FirmwareVolumeHeader.check
  split_ifs with h1 h2 h3
  · simp; intro hg; exact absurd hg h1
  · simp; intro _ hs; exact absurd hs h2
  · simp
    intro _ _
    omega
  · simp
    push_neg at h1 h2 h3
    exact ⟨h1, h2, by omega⟩

theorem readHeader_shape (b : List Nat) (h : FirmwareVolumeHeader)
    (r : List Nat) (heq : readHeader b = some (h, r)) :
    wfShape h ∧ r = b.drop 56 ∧ 56 ≤ b.length := by
  rw [readHeader] at heq
  split at heq
  · cases heq
  · rename_i hlen
    cases heq
    push_neg at hlen
    refine ⟨⟨?_, ?_, ?_⟩, rfl, hlen⟩
    · simp; omega
    · simp; omega
    · simp; omega

theorem volumeFromFiles_ne_panicked (hd : FirmwareVolumeHeader)
    (res : Except Nat (List FirmwareFile)) (rest2 : List Nat) (s : String) :
    volumeFromFiles hd res rest2 ≠ .panicked s := by
  cases res <;> simp [volumeFromFiles]

theorem volumeFromFiles_eq (hd : FirmwareVolumeHeader)
    (res : Except Nat (List FirmwareFile)) (rest2 : List Nat) (v : Volume) :
    volumeFromFiles hd res rest2 = .ok v ↔
      res = .ok v.Files ∧
        v = { header := hd, Files := v.Files, Custom := rest2 } := by
  cases res with
  | error i =>
    constructor
    · intro h; cases h
    · rintro ⟨h, _⟩; cases h
  | ok files =>
    constructor
    · intro h
      injection h with h
      subst h
      exact ⟨rfl, rfl⟩
    · rintro ⟨h1, h2⟩
      injection h1 with h1
      subst h1
      conv_rhs => rw [h2]
      rfl

/-! ### Lemmas about the serializer -/

theorem Serialize_eq (v : Volume)
    (hpad : (v.Files.any fun f => f.FileType == FileTypePadding) = true) :
    v.Serialize = .ok { v with header := serHeader2 v } (serOut v) := by
  unfold Volume.Serialize
  rw [hpad]
  rfl

theorem Serialize_no_padding (v : Volume)
    (h : (v.Files.any fun f => f.FileType == FileTypePadding) = false) :
    v.Serialize = .panicked "unimplemented" := by
  unfold Volume.Serialize
  rw [h]
  rfl

theorem Serialize_ok_inv (v v2 : Volume) (out : List Nat)
    (h : v.Serialize = .ok v2 out) :
    (v.Files.any fun f => f.FileType == FileTypePadding) = true ∧
      v2 = { v with header := serHeader2 v } ∧ out = serOut v := by
  unfold Volume.Serialize at h
  split at h
  · cases h
  · rename_i hc
    have hpad : (v.Files.any fun f => f.FileType == FileTypePadding) = true := by
      revert hc
      cases v.Files.any fun f => f.FileType == FileTypePadding <;> simp
    dsimp only at h
    injection h with h1 h2
    exact ⟨hpad, h1.symm, h2.symm⟩

theorem wfShape_serHeader2 (v : Volume) (hwf : wfShape v.header) :
    wfShape (serHeader2 v) := hwf

theorem encodeBlockmap_length (bm : List blockmap) :
    (encodeBlockmap bm).length = 8 * bm.length := by
  induction bm with
  | nil => simp [encodeBlockmap]
  | cons e es ih =>
    simp [encodeBlockmap, leBytes_length] at ih ⊢
    omega

theorem serFlatten_length (v : Volume) :
    (serFileData v).flatten.length = filesSizeOf v := by
  simp [serFileData, filesSizeOf]

theorem files_le_sum (fs : List FirmwareFile) :
    fs.length ≤ ((fs.map (fun f => padTo8 f.Serialize)).map List.length).sum := by
  induction fs with
  | nil => simp
  | cons f fs ih =>
    have h1 : 1 ≤ (padTo8 f.Serialize).length := by
      rw [padTo8_length, serialize_length]; omega
    simp only [List.map_cons, List.sum_cons, List.length_cons]
    omega

theorem serNblocks_val (v : Volume) (hsize : filesSizeOf v + 0x48 < 2 ^ 32) :
    serNblocks v = (filesSizeOf v + 0x48) / 256 := by
  unfold serNblocks
  have h1 : filesSizeOf v + 0x38 + 0x10 = filesSizeOf v + 0x48 := by omega
  rw [h1]
  exact Nat.mod_eq_of_lt
    (by have := Nat.div_le_self (filesSizeOf v + 0x48) 256; omega)

theorem zeroChecksum_encode (h : FirmwareVolumeHeader) (hwf : wfShape h)
    (r : List Nat) :
    zeroChecksumField (encodeHeader h ++ r)
      = encodeHeader { h with Checksum := 0 } ++ r := by
  obtain ⟨h1, h2, h3⟩ := hwf
  set pre := h.Reserved ++ (h.GUID ++ (leBytes 8 h.Length ++ (h.Signature ++
    (leBytes 4 h.AttributeMask ++ leBytes 2 h.HeaderLength)))) with hpre
  set post := leBytes 2 h.ExtHeaderOffset ++ (leBytes 1 h.Reserved2 ++
    (leBytes 1 h.Revision ++ r)) with hpost
  have assoc : encodeHeader h ++ r = pre ++ (leBytes 2 h.Checksum ++ post) := by
    rw [hpre, hpost]; simp [encodeHeader]
  have hprelen : pre.length = 50 := by
    rw [hpre]; simp [leBytes_length, h1, h2, h3]
  have ht50 : (encodeHeader h ++ r).take 50 = pre := by
    rw [assoc]; exact take_chunk _ _ _ hprelen
  have hd50 : (encodeHeader h ++ r).drop 50 = leBytes 2 h.Checksum ++ post := by
    rw [assoc]; exact drop_chunk _ _ _ hprelen
  have hd52 : (encodeHeader h ++ r).drop 52 = post := by
    have e : (encodeHeader h ++ r).drop 52 = ((encodeHeader h ++ r).drop 50).drop 2 :=
      (List.drop_drop 2 50 _).symm
    rw [e, hd50]; exact drop_chunk _ _ _ (leBytes_length 2 _)
  show (encodeHeader h ++ r).take 50 ++ [0, 0] ++ (encodeHeader h ++ r).drop 52 = _
  rw [ht50, hd52]
  have hrhs : encodeHeader { h with Checksum := 0 } ++ r
      = pre ++ ([0, 0] ++ post) := by
    rw [hpre, hpost]
    show _ ++ _ = _
    simp [encodeHeader, leBytes]
  rw [hrhs]
  simp

theorem serOut_take72 (v : Volume) (hwf : wfShape v.header) :
    (serOut v).take 0x48
      = encodeHeader (serHeader2 v) ++ encodeBlockmap (serBmap v) := by
  have hlen : (encodeHeader (serHeader2 v) ++ encodeBlockmap (serBmap v)).length
      = 72 := by
    rw [List.length_append, encodeHeader_length _ (wfShape_serHeader2 v hwf),
      encodeBlockmap_length]
    simp [serBmap]
  have assoc : serOut v = (encodeHeader (serHeader2 v) ++ encodeBlockmap (serBmap v))
      ++ ((serFileData v).flatten ++ v.Custom) := by
    simp [serOut, List.append_assoc]
  rw [assoc]
  exact take_chunk _ _ _ hlen

theorem reparse_of_aligned (v : Volume)
    (hchk : v.header.check = none) (hwf : wfShape v.header)
    (hfwf : ∀ f ∈ v.Files, wfFile f)
    (halign : (filesSizeOf v + 0x48) % 256 = 0)
    (hsize : filesSizeOf v + 0x48 < 2 ^ 32) :
    ReadVolume (serOut v) = .ok
      { header := normHeader (serHeader2 v), Files := v.Files,
        Custom := v.Custom } := by
  obtain ⟨hg, hsig, _⟩ := (check_none_iff _).mp hchk
  set F := filesSizeOf v with hF
  set rest1 := encodeBlockmap (serBmap v) ++ ((serFileData v).flatten ++ v.Custom)
    with hrest1
  have hout : serOut v = encodeHeader (serHeader2 v) ++ rest1 := by
    rw [hrest1]; simp [serOut, List.append_assoc]
  have hH : readHeader (serOut v) = some (normHeader (serHeader2 v), rest1) := by
    rw [hout]; exact readHeader_encode _ _ (wfShape_serHeader2 v hwf)
  have hHL2 : (normHeader (serHeader2 v)).HeaderLength = 0x48 := rfl
  have hchk2 : (normHeader (serHeader2 v)).check = none := by
    rw [check_none_iff]
    refine ⟨?_, ?_, by rw [hHL2]; omega⟩
    · show v.header.GUID = validGUIDBytes
      exact hg
    · show v.header.Signature = fvhSignature
      exact hsig
  rw [ReadVolume, hH]
  dsimp only
  rw [hchk2]
  dsimp only
  rw [hHL2]
  rw [if_neg (by norm_num)]
  have hcnt : ((0x48 : Nat) - 0x38) / 8 = 2 := by norm_num
  rw [hcnt]
  have hbmlen : (serBmap v).length = 2 := rfl
  have hbm : readBlockmap 2 rest1
      = some (serBmap v, (serFileData v).flatten ++ v.Custom) := by
    rw [hrest1]
    have hwfbm : ∀ e ∈ serBmap v, e.BlockCount < 2 ^ 32 ∧ e.BlockSize < 2 ^ 32 := by
      intro e he
      simp [serBmap] at he
      rcases he with rfl | rfl
      · exact ⟨Nat.mod_lt _ (by norm_num), by norm_num⟩
      · exact ⟨by norm_num, by norm_num⟩
    have := readBlockmap_encode (serBmap v)
      ((serFileData v).flatten ++ v.Custom) hwfbm
    rw [hbmlen] at this
    exact this
  rw [hbm]
  dsimp only
  have hlast : (serBmap v).getLast? = some ⟨0, 0⟩ := rfl
  rw [hlast]
  dsimp only
  rw [if_neg (by simp)]
  rw [if_neg (by rw [hbmlen]; omega)]
  unfold volumeFromBmap
  dsimp only
  have he0 : (serBmap v).headD ⟨0, 0⟩ = ⟨serNblocks v, 256⟩ := rfl
  rw [he0]
  dsimp only
  have hdrl : dataRegionLength (serNblocks v) 256 = F := by
    rw [serNblocks_val v hsize]
    unfold dataRegionLength
    dsimp only
    have hdvd : (256 : Nat) ∣ (F + 0x48) := Nat.dvd_of_mod_eq_zero halign
    have hmul : (F + 0x48) / 256 * 256 = F + 0x48 := Nat.div_mul_cancel hdvd
    rw [hmul]
    have hm : (F + 0x48) % 2 ^ 32 = F + 0x48 := Nat.mod_eq_of_lt hsize
    rw [hm]
    omega
  rw [hdrl]
  have hflen : (serFileData v).flatten.length = F := serFlatten_length v
  have htake : ((serFileData v).flatten ++ v.Custom).take F
      = (serFileData v).flatten := take_chunk _ _ _ hflen
  have hdrop : ((serFileData v).flatten ++ v.Custom).drop F
      = v.Custom := drop_chunk _ _ _ hflen
  rw [htake, hdrop]
  have hfuel : v.Files.length ≤ (serFileData v).flatten.length + 1 := by
    have h1 := files_le_sum v.Files
    rw [hflen, hF]
    unfold filesSizeOf
    omega
  have hrf : readFiles ((serFileData v).flatten.length + 1) 0
      ((serFileData v).flatten) = .ok v.Files :=
    readFiles_chunks v.Files _ 0 hfwf hfuel
  rw [hrf]
  rfl

theorem ReadVolume_ok_inv (b : List Nat) (v : Volume)
    (h : ReadVolume b = .ok v) :
    v.header.check = none ∧ wfShape v.header ∧ ∀ f ∈ v.Files, wfFile f := by
  rw [ReadVolume] at h
  split at h
  · cases h
  · rename_i hd rest hheq
    cases hchk : hd.check with
    | some e => rw [hchk] at h; cases h
    | none =>
      rw [hchk] at h
      dsimp only at h
      split at h
      · cases h
      · split at h
        · cases h
        · rename_i bmap rest2 hbm
          split at h
          · cases h
          · split at h
            · cases h
            · split at h
              · cases h
              · unfold volumeFromBmap at h
                dsimp only at h
                rw [volumeFromFiles_eq] at h
                obtain ⟨hfl, hv⟩ := h
                have hhd : v.header = hd := by rw [hv]
                rw [hhd]
                exact ⟨hchk, (readHeader_shape _ _ _ hheq).1,
                  readFiles_wf _ _ _ _ hfl⟩

/-! ### Claim theorems -/

/-- C2 (counterexample): a Volume with no padding-typed record does not
make `Serialize` return an `UnsupportedOperation` error to its caller — the
call panics (Go `panic("unimplemented")`), which is not an error return. -/
theorem C2_counterexample :
    noPadVol.Serialize = .panicked "unimplemented" ∧
      SerResult.isErr noPadVol.Serialize = false := ⟨rfl, rfl⟩

/-- C2 (amended): for every Volume whose FileRecords contain no
padding-typed record, `Serialize` fails by panicking with "unimplemented"
(it neither returns an error value nor produces any — truncated or other —
output). -/
theorem C2_no_padding_panics (v : Volume)
    (h : ∀ f ∈ v.Files, f.FileType ≠ FileTypePadding) :
    v.Serialize = .panicked "unimplemented" ∧
      SerResult.isErr v.Serialize = false := by
  have hany : (v.Files.any fun f => f.FileType == FileTypePadding) = false := by
    rw [List.any_eq_false]
    intro f hf
    simpa using h f hf
  rw [Serialize_no_padding v hany]
  exact ⟨rfl, rfl⟩

/-- C2 (witness): the amended statement at a Volume with no files. -/
theorem C2_no_padding_panics_witness :
    noFilesVol.Serialize = .panicked "unimplemented" ∧
      SerResult.isErr noFilesVol.Serialize = false :=
  C2_no_padding_panics noFilesVol (by intro f hf; simp [noFilesVol] at hf)

/-- C3 (counterexample): on an input whose block-map entry read runs past
the cursor's bound, parsing does not return a `MalformedBlockMap` error to
the caller — the Go code calls `glog.Exit`, terminating the process. -/
theorem C3_counterexample :
    ReadVolume c3input = .exit "reading blockmap entry failed" ∧
      PResult.isErr (ReadVolume c3input) = false := ⟨rfl, rfl⟩

/-- C3 (amended): for every input whose header parses and passes `check`
and whose block-map table is size-aligned but has fewer bytes than the
derived entry count needs, parsing terminates the process via `glog.Exit`
(modelled as the `exit` outcome); no error value is returned to the
caller. -/
theorem C3_short_blockmap_read_exits (b : List Nat)
    (h : FirmwareVolumeHeader) (rest : List Nat)
    (hh : readHeader b = some (h, rest)) (hchk : h.check = none)
    (hdiv : (h.HeaderLength - 0x38) % 8 = 0)
    (hshort : rest.length < 8 * ((h.HeaderLength - 0x38) / 8)) :
    ReadVolume b = .exit "reading blockmap entry failed" ∧
      PResult.isErr (ReadVolume b) = false := by
  have hmain : ReadVolume b = .exit "reading blockmap entry failed" := by
    rw [ReadVolume, hh]
    dsimp only
    rw [hchk]
    dsimp only
    rw [if_neg (by omega)]
    rw [readBlockmap_short _ _ hshort]
  exact ⟨hmain, by rw [hmain]; rfl⟩

/-- C3 (witness): the amended statement at the concrete short input. -/
theorem C3_short_blockmap_read_exits_witness :
    ReadVolume c3input = .exit "reading blockmap entry failed" ∧
      PResult.isErr (ReadVolume c3input) = false :=
  C3_short_blockmap_read_exits c3input sampleHeader [0, 0, 0, 0] rfl rfl
    (by decide) (by decide)

/-- C6: the derived data-region length is
`BlockCount * BlockSize - 0x48` in 32-bit unsigned arithmetic; every
block-map entry the parser decodes is below `2^32` in both components; and
for the map `[{100, 256}, {0, 0}]` the derived length is 25528 bytes. -/
theorem C6_data_region_length :
    (∀ bc bs : Nat, bc < 2 ^ 32 → bs < 2 ^ 32 →
        (dataRegionLength bc bs : Int)
          = ((bc : Int) * bs - 0x48) % (2 ^ 32 : Int)) ∧
      (∀ n b es r, readBlockmap n b = some (es, r) →
        ∀ e ∈ es, e.BlockCount < 2 ^ 32 ∧ e.BlockSize < 2 ^ 32) ∧
      dataRegionLength 100 256 = 25528 := by
  refine ⟨?_, fun n b es r hbm => readBlockmap_bounds n b es r hbm,
    by norm_num [dataRegionLength]⟩
  intro bc bs hbc hbs
  unfold dataRegionLength
  dsimp only
  have hcast : (bc : Int) * bs = ((bc * bs : Nat) : Int) := by push_cast; ring
  rw [hcast]
  generalize bc * bs = m
  omega

/-- C6 (witness): the 32-bit formula and the concrete 25528-byte value at
the map `[{100, 256}, {0, 0}]`. -/
theorem C6_data_region_length_witness :
    ((dataRegionLength 100 256 : Int)
        = ((100 : Int) * 256 - 0x48) % (2 ^ 32 : Int)) ∧
      dataRegionLength 100 256 = 25528 :=
  ⟨C6_data_region_length.1 100 256 (by norm_num) (by norm_num),
   C6_data_region_length.2.2⟩

/-- C7: on every successful `Serialize` the emitted bytes are header,
then exactly the block map `[{(filesSize + 0x48) / 256, 256}, {0, 0}]`,
then the 8-aligned per-file chunks, then `Custom`; the emitted header has
`HeaderLength = 0x48`, `ExtHeaderOffset = 0` and
`Length = filesSize + (256 - filesSize % 256) % 256`; and `filesSize` is
the sum of the per-file serialized-and-8-aligned chunk lengths. (The size
bound keeps the 32-bit block count and the 64-bit length exact.) -/
theorem C7_serialize_layout (v v2 : Volume) (out : List Nat)
    (hs : v.Serialize = .ok v2 out)
    (hsize : filesSizeOf v + 0x48 < 2 ^ 32) :
    out = encodeHeader v2.header ++
        encodeBlockmap [⟨(filesSizeOf v + 0x48) / 256, 256⟩, ⟨0, 0⟩] ++
        (v.Files.map (fun f => padTo8 f.Serialize)).flatten ++ v.Custom ∧
      v2.header.HeaderLength = 0x48 ∧
      v2.header.ExtHeaderOffset = 0 ∧
      v2.header.Length = filesSizeOf v + (256 - filesSizeOf v % 256) % 256 ∧
      filesSizeOf v
        = ((v.Files.map (fun f => padTo8 f.Serialize)).map List.length).sum := by
  obtain ⟨hpad, hv2, hout⟩ := Serialize_ok_inv v v2 out hs
  subst hv2
  subst hout
  have hpadval : serPadding v = (256 - filesSizeOf v % 256) % 256 := by
    unfold serPadding
    split_ifs with h0
    · have h1 : filesSizeOf v % 256 < 256 := Nat.mod_lt _ (by omega)
      omega
    · omega
  have hbmval : serBmap v = [⟨(filesSizeOf v + 0x48) / 256, 256⟩, ⟨0, 0⟩] := by
    unfold serBmap
    rw [serNblocks_val v hsize]
  refine ⟨?_, rfl, rfl, ?_, rfl⟩
  · show serOut v = encodeHeader (serHeader2 v) ++
        encodeBlockmap [⟨(filesSizeOf v + 0x48) / 256, 256⟩, ⟨0, 0⟩] ++
        (serFileData v).flatten ++ v.Custom
    rw [← hbmval]
    rfl
  · show (filesSizeOf v + serPadding v) % 2 ^ 64 = _
    have hle : serPadding v ≤ 256 := by
      unfold serPadding
      split_ifs <;> omega
    rw [Nat.mod_eq_of_lt (by omega), hpadval]

/-- C7 (witness): the layout statement at a concrete two-byte-payload
Volume. -/
theorem C7_serialize_layout_witness :
    (serializedVolume c7vol).header.HeaderLength = 0x48 ∧
      (serializedVolume c7vol).header.Length
        = filesSizeOf c7vol + (256 - filesSizeOf c7vol % 256) % 256 :=
  ⟨(C7_serialize_layout c7vol (serializedVolume c7vol) (serializedBytes c7vol)
      rfl (by decide)).2.1,
   (C7_serialize_layout c7vol (serializedVolume c7vol) (serializedBytes c7vol)
      rfl (by decide)).2.2.2.1⟩

/-- C8: after every successful `Serialize`, computing the 16-bit checksum
over the emitted header+block-map bytes with the checksum field zeroed
yields exactly the checksum stored in the emitted header. -/
theorem C8_checksum_consistency (v v2 : Volume) (out : List Nat)
    (hs : v.Serialize = .ok v2 out) (hwf : wfShape v.header) :
    checksum16 (zeroChecksumField (out.take 0x48)) = v2.header.Checksum := by
  obtain ⟨hpad, hv2, hout⟩ := Serialize_ok_inv v v2 out hs
  subst hv2
  subst hout
  rw [serOut_take72 v hwf, zeroChecksum_encode (serHeader2 v)
    (wfShape_serHeader2 v hwf) (encodeBlockmap (serBmap v))]
  rfl

/-- C8 (witness): checksum self-consistency at a concrete Volume. -/
theorem C8_checksum_consistency_witness :
    checksum16 (zeroChecksumField ((serializedBytes c8vol).take 0x48))
      = (serializedVolume c8vol).header.Checksum :=
  C8_checksum_consistency c8vol (serializedVolume c8vol)
    (serializedBytes c8vol) rfl (by decide)

/-- C9 (counterexample): `Serialize` is not a pure function of the Volume —
it overwrites header fields on the receiver: on `c9vol` the stored `Length`
999 becomes 256 after the call. -/
theorem C9_counterexample :
    c9vol.Serialize = .ok (serializedVolume c9vol) (serializedBytes c9vol) ∧
      c9vol.header.Length = 999 ∧
      (serializedVolume c9vol).header.Length = 256 := ⟨rfl, rfl, rfl⟩

/-- C9 (amended): a successful `Serialize` leaves `Files`, `Custom` and the
passthrough header fields (Reserved, GUID, Signature, AttributeMask,
Reserved2, Revision) unchanged, but overwrites `HeaderLength` (to 0x48),
`ExtHeaderOffset` (to 0), `Length` and `Checksum` with recomputed
values. -/
theorem C9_serialize_updates_header (v v2 : Volume) (out : List Nat)
    (hs : v.Serialize = .ok v2 out) :
    v2.Files = v.Files ∧ v2.Custom = v.Custom ∧
      v2.header.Reserved = v.header.Reserved ∧
      v2.header.GUID = v.header.GUID ∧
      v2.header.Signature = v.header.Signature ∧
      v2.header.AttributeMask = v.header.AttributeMask ∧
      v2.header.Reserved2 = v.header.Reserved2 ∧
      v2.header.Revision = v.header.Revision ∧
      v2.header.HeaderLength = 0x48 ∧
      v2.header.ExtHeaderOffset = 0 ∧
      v2.header.Length = (filesSizeOf v + serPadding v) % 2 ^ 64 ∧
      v2.header.Checksum = serChecksum v := by
  obtain ⟨_, hv2, _⟩ := Serialize_ok_inv v v2 out hs
  subst hv2
  exact ⟨rfl, rfl, rfl, rfl, rfl, rfl, rfl, rfl, rfl, rfl, rfl, rfl⟩

/-- C9 (witness): the amended statement at a concrete two-record Volume. -/
theorem C9_serialize_updates_header_witness :
    (serializedVolume c9wvol).Files = c9wvol.Files ∧
      (serializedVolume c9wvol).header.HeaderLength = 0x48 :=
  ⟨(C9_serialize_updates_header c9wvol (serializedVolume c9wvol)
      (serializedBytes c9wvol) rfl).1,
   (C9_serialize_updates_header c9wvol (serializedVolume c9wvol)
      (serializedBytes c9wvol) rfl).2.2.2.2.2.2.2.2.1⟩

/-- C10: whenever the header check passes, the derived block-map entry
count `(HeaderLength - 0x38) / 8` is at least 1, and consequently the
parse's inspection of the final block-map entry (Go `bmap[len(bmap)-1]`)
never runs on an empty sequence: no input makes `ReadVolume` hit the
out-of-range index panic. -/
theorem C10_terminator_access_safe :
    (∀ h : FirmwareVolumeHeader, h.check = none →
        1 ≤ (h.HeaderLength - 0x38) / 8) ∧
      ∀ b, ReadVolume b ≠ .panicked "index out of range" := by
  constructor
  · intro h hchk
    obtain ⟨_, _, hl⟩ := (check_none_iff h).mp hchk
    omega
  · intro b hcontra
    rw [ReadVolume] at hcontra
    split at hcontra
    · cases hcontra
    · rename_i hd rest hheq
      cases hchk : hd.check with
      | some e => rw [hchk] at hcontra; cases hcontra
      | none =>
        rw [hchk] at hcontra
        dsimp only at hcontra
        split at hcontra
        · cases hcontra
        · split at hcontra
          · cases hcontra
          · rename_i bmap rest2 hbm
            split at hcontra
            · rename_i hlast
              have hbmlen := (readBlockmap_spec _ _ _ _ hbm).1
              have hempty : bmap = [] := List.getLast?_eq_none_iff.mp hlast
              obtain ⟨_, _, hl⟩ := (check_none_iff hd).mp hchk
              rw [hempty] at hbmlen
              simp at hbmlen
              omega
            · split at hcontra
              · cases hcontra
              · split at hcontra
                · cases hcontra
                · unfold volumeFromBmap at hcontra
                  dsimp only at hcontra
                  exact volumeFromFiles_ne_panicked _ _ _ _ hcontra

/-- C10 (witness): the count bound at the sample header and the no-panic
fact at the empty input. -/
theorem C10_terminator_access_safe_witness :
    1 ≤ (sampleHeader.HeaderLength - 0x38) / 8 ∧
      ReadVolume [] ≠ .panicked "index out of range" :=
  ⟨C10_terminator_access_safe.1 sampleHeader rfl,
   C10_terminator_access_safe.2 []⟩

set_option maxRecDepth 100000 in
/-- C1 (counterexample): a Volume parsed from a valid sample image with a
padding record whose re-serialized file region is not 256-aligned does not
round-trip: `Serialize` re-quantizes the block map to 256-byte blocks,
truncating the data region, and the second parse fails at file 0 instead of
reproducing the same FileRecords and Custom blob. -/
theorem C1_counterexample :
    ReadVolume c1input = .ok c1vol ∧
      (c1vol.Files.any fun f => f.FileType == FileTypePadding) = true ∧
      ReadVolume (serializedBytes c1vol) = .err (.fileError 0) := ⟨rfl, rfl, rfl⟩

/-- C1 (amended): for every Volume parsed from a valid image that contains
a padding-typed record, provided the re-serialized file-region size plus
the 0x48 header/block-map bytes is an exact multiple of 256 (and below
2^32), serializing and parsing again reproduces the same FileRecord
sequence and the same Custom blob byte-for-byte, even though the outer
header/block-map bytes are re-quantized. -/
theorem C1_roundtrip_aligned (b : List Nat) (v : Volume)
    (hparse : ReadVolume b = .ok v)
    (hpad : (v.Files.any fun f => f.FileType == FileTypePadding) = true)
    (halign : (filesSizeOf v + 0x48) % 256 = 0)
    (hsize : filesSizeOf v + 0x48 < 2 ^ 32) :
    ∃ v2 out v3, v.Serialize = .ok v2 out ∧ ReadVolume out = .ok v3 ∧
      v3.Files = v.Files ∧ v3.Custom = v.Custom := by
  obtain ⟨hchk, hwf, hfwf⟩ := ReadVolume_ok_inv b v hparse
  exact ⟨_, _, _, Serialize_eq v hpad,
    reparse_of_aligned v hchk hwf hfwf halign hsize, rfl, rfl⟩

set_option maxRecDepth 100000 in
/-- C1 (witness): the aligned round-trip at a concrete one-block sample
image. -/
theorem C1_roundtrip_aligned_witness :
    ReadVolume c1winput = .ok c1wvol ∧
      ∃ v2 out v3, c1wvol.Serialize = .ok v2 out ∧ ReadVolume out = .ok v3 ∧
        v3.Files = c1wvol.Files ∧ v3.Custom = c1wvol.Custom :=
  ⟨rfl, C1_roundtrip_aligned c1winput c1wvol rfl rfl (by decide) (by decide)⟩

/-- C4 (counterexample): on an input whose GUID is corrupt and whose
`HeaderLength` is 0x30 (< 0x40), parsing returns the GUID error — an
`UnsupportedFormat`-class error, not a `MalformedHeader`-class one as the
claim requires for every `HeaderLength < 0x40` input. -/
theorem C4_counterexample :
    ReadVolume c4input = .err .unknownGUID ∧
      isMalformedHeader .unknownGUID = false ∧
      isUnsupportedFormat .unknownGUID = true := ⟨rfl, rfl, rfl⟩

/-- C4 (amended): for every input whose fixed header decodes, a GUID or
signature mismatch makes parsing fail with an `UnsupportedFormat`-class
error, and `HeaderLength < 0x40` makes it fail with the
`MalformedHeader`-class `headerLengthTooSmall` error provided GUID and
signature are valid (those checks take precedence); in both cases the
result is the same for every continuation of the input beyond the 0x38
header bytes, so the error is returned before any block-map decoding. -/
theorem C4_header_rejection (b : List Nat) (h : FirmwareVolumeHeader)
    (rest : List Nat) (hh : readHeader b = some (h, rest)) :
    ((h.GUID ≠ validGUIDBytes ∨ h.Signature ≠ fvhSignature) →
      ∃ e, isUnsupportedFormat e = true ∧
        ∀ junk, ReadVolume (b.take 0x38 ++ junk) = .err e) ∧
    (h.GUID = validGUIDBytes → h.Signature = fvhSignature →
      h.HeaderLength < 0x40 →
      isMalformedHeader VolErr.headerLengthTooSmall = true ∧
        ∀ junk, ReadVolume (b.take 0x38 ++ junk)
          = .err .headerLengthTooSmall) := by
  have hlen : 56 ≤ b.length := by
    by_cases hl : b.length < 0x38
    · rw [readHeader, if_pos hl] at hh; cases hh
    · omega
  have hhb := readHeader_headerOfBytes b h rest hh
  have hjunk : ∀ junk, readHeader (b.take 0x38 ++ junk) = some (h, junk) := by
    intro junk
    rw [readHeader_take_junk b junk hlen, ← hhb]
  constructor
  · intro hbad
    by_cases hg : h.GUID = validGUIDBytes
    · have hs : h.Signature ≠ fvhSignature := by tauto
      refine ⟨.invalidSignature, rfl, ?_⟩
      intro junk
      rw [ReadVolume, hjunk junk]
      dsimp only
      have hchk : h.check = some .invalidSignature := by
        unfold FirmwareVolumeHeader.check
        rw [if_neg (by simp [hg]), if_pos hs]
      rw [hchk]
    · refine ⟨.unknownGUID, rfl, ?_⟩
      intro junk
      rw [ReadVolume, hjunk junk]
      dsimp only
      have hchk : h.check = some .unknownGUID := by
        unfold FirmwareVolumeHeader.check
        rw [if_pos hg]
      rw [hchk]
  · intro hg hs hl
    refine ⟨rfl, ?_⟩
    intro junk
    rw [ReadVolume, hjunk junk]
    dsimp only
    have hchk : h.check = some .headerLengthTooSmall := by
      unfold FirmwareVolumeHeader.check
      rw [if_neg (by simp [hg]), if_neg (by simp [hs]), if_pos (by omega)]
    rw [hchk]

/-- C4 (witness): the amended statement at the corrupt-GUID 0x30-length
input. -/
theorem C4_header_rejection_witness :
    ((c4hdr.GUID ≠ validGUIDBytes ∨ c4hdr.Signature ≠ fvhSignature) →
      ∃ e, isUnsupportedFormat e = true ∧
        ∀ junk, ReadVolume (c4input.take 0x38 ++ junk) = .err e) ∧
    (c4hdr.GUID = validGUIDBytes → c4hdr.Signature = fvhSignature →
      c4hdr.HeaderLength < 0x40 →
      isMalformedHeader VolErr.headerLengthTooSmall = true ∧
        ∀ junk, ReadVolume (c4input.take 0x38 ++ junk)
          = .err .headerLengthTooSmall) :=
  C4_header_rejection c4input c4hdr [] rfl

/-- C5: for every input passing the header check, the block-map stage
fails with `blockmapMisaligned` when `(HeaderLength - 0x38)` is not a
multiple of 8; otherwise, when the entries are decoded, their count is
exactly `(HeaderLength - 0x38) / 8`, and the parse proceeds past block-map
validation exactly when the count is 2 and the last entry is `(0, 0)` —
any violation yields a `MalformedBlockMap`-class error. -/
theorem C5_blockmap_validation (b : List Nat) (h : FirmwareVolumeHeader)
    (rest : List Nat) (hh : readHeader b = some (h, rest))
    (hchk : h.check = none) :
    ((h.HeaderLength - 0x38) % 8 ≠ 0 →
        ReadVolume b = .err .blockmapMisaligned) ∧
    ((h.HeaderLength - 0x38) % 8 = 0 →
      ∀ es rest2,
        readBlockmap ((h.HeaderLength - 0x38) / 8) rest = some (es, rest2) →
          es.length = (h.HeaderLength - 0x38) / 8 ∧
          (es.getLast? = some ⟨0, 0⟩ → es.length = 2 →
            ReadVolume b = volumeFromBmap h es rest2) ∧
          (es.getLast? ≠ some ⟨0, 0⟩ ∨ es.length ≠ 2 →
            ∃ e, isMalformedBlockMap e = true ∧ ReadVolume b = .err e)) := by
  constructor
  · intro hdiv
    rw [ReadVolume, hh]
    dsimp only
    rw [hchk]
    dsimp only
    rw [if_pos hdiv]
  · intro hdiv es rest2 hbm
    have hlen := (readBlockmap_spec _ _ _ _ hbm).1
    refine ⟨hlen, ?_, ?_⟩
    · intro hterm hcount
      rw [ReadVolume, hh]
      dsimp only
      rw [hchk]
      dsimp only
      rw [if_neg (by omega), hbm]
      dsimp only
      rw [hterm]
      dsimp only
      rw [if_neg (by simp), if_neg (by omega)]
    · intro hbad
      rw [ReadVolume, hh]
      dsimp only
      rw [hchk]
      dsimp only
      rw [if_neg (by omega), hbm]
      dsimp only
      have hne : es ≠ [] := by
        intro he
        obtain ⟨_, _, hhl⟩ := (check_none_iff h).mp hchk
        rw [he] at hlen
        simp at hlen
        omega
      obtain ⟨last, hlast⟩ :=
        Option.isSome_iff_exists.mp (List.getLast?_isSome.mpr hne)
      rw [hlast]
      dsimp only
      by_cases hterm : last.BlockCount ≠ 0 ∨ last.BlockSize ≠ 0
      · refine ⟨.blockmapBadTerminator, rfl, ?_⟩
        rw [if_pos hterm]
      · have hlast00 : last = ⟨0, 0⟩ := by
          push_neg at hterm
          obtain ⟨h1, h2⟩ := hterm
          cases last
          simp at h1 h2
          rw [h1, h2]
        have hcnt : es.length ≠ 2 := by
          rcases hbad with hbad | hbad
          · exact absurd (by rw [hlast, hlast00]) hbad
          · exact hbad
        refine ⟨.blockmapBadCount, rfl, ?_⟩
        rw [if_neg hterm, if_pos hcnt]

/-- C5 (witness): the misaligned-table branch at a header with
`HeaderLength` 0x41. -/
theorem C5_blockmap_validation_witness :
    ReadVolume c5input = .err .blockmapMisaligned :=
  (C5_blockmap_validation c5input c5hdr [] rfl rfl).1 (by decide)

end Wind3x
